import Mathlib

/-!
Shallow embedding of the archive-as-filesystem adapter (`src/fs/archive.rs`):
the `ArchiveEntry` record and its `Filelike` accessors, the `Error` display
conversion, the tar format reader (`TarReader`), the format dispatcher
(`ArchiveFormat`), the `Archive` aggregate and its hierarchical view iterator
(`ArchiveIterator`).  Machine integers (`u64`) are modelled as `Nat` (no
arithmetic is performed on them, so no overflow can arise); Rust `PathBuf`
values are modelled by their component decomposition; fallible calls into the
tar library are modelled as `Except String` values carried by a raw-record
structure, where the `String` is the underlying error's display text.
-/

/-- Model of a Rust `PathBuf` by its parsed components: an absoluteness flag
(whether the path starts with the root `/`) and the list of normal components.
Rust path equality compares exactly this data (so `a/c/` equals `a/c`). -/
structure FsPath where
  absolute : Bool
  components : List String
deriving DecidableEq

/-- Model of Rust `Path::parent`: `none` for an empty or root path (no
components), otherwise the path with its last component dropped. -/
def FsPath.parent (p : FsPath) : Option FsPath :=
  match p.components with
  | [] => none
  | _ :: _ => some { absolute := p.absolute, components := p.components.dropLast }

/-- `fields::Size` (`f::Size`): a known byte count or "not applicable". -/
inductive FSize where
  | none : FSize
  | some (bytes : Nat) : FSize
deriving DecidableEq

/-- `fields::Permissions`, kept abstract as the raw mode bits it is built
from; no claim inspects individual permission flags. -/
structure Permissions where
  mode : Nat
deriving DecidableEq

/-- `Permissions::from_mode`. -/
def Permissions.from_mode (mode : Nat) : Permissions :=
  { mode := mode }

/-- `Owner`: numeric id plus optional symbolic name. -/
structure Owner where
  id : Nat
  name : Option String
deriving DecidableEq

/-- `ArchiveEntry` (src/fs/archive.rs lines 28-45). -/
structure ArchiveEntry where
  name : String
  path : FsPath
  size : Nat
  permissions : Option Permissions
  user : Option Owner
  group : Option Owner
  is_directory : Bool
  is_link : Bool
  link_target : Option FsPath
  mtime : Option Nat
  atime : Option Nat
  ctime : Option Nat
deriving DecidableEq

namespace Filelike

/-- `Filelike::is_directory` for `ArchiveEntry` (line 80). -/
def is_directory (e : ArchiveEntry) : Bool :=
  e.is_directory

/-- `Filelike::is_link` for `ArchiveEntry` (line 99). -/
def is_link (e : ArchiveEntry) : Bool :=
  e.is_link

/-- `Filelike::is_file` for `ArchiveEntry` (line 90):
`!self.is_link && !self.is_directory`. -/
def is_file (e : ArchiveEntry) : Bool :=
  !e.is_link && !e.is_directory

/-- `Filelike::size` for `ArchiveEntry` (lines 182-188). -/
def size (e : ArchiveEntry) : FSize :=
  if e.is_directory || e.is_link then
    FSize.none
  else
    FSize.some e.size

/-- `Filelike::length` for `ArchiveEntry` (lines 190-192). -/
def length (e : ArchiveEntry) : Nat :=
  e.size

end Filelike

/-- Split a character list at every occurrence of the separator; the result
always has one more part than there are separators. -/
def splitChar (c : Char) : List Char → List (List Char)
  | [] => [[]]
  | x :: xs =>
    match splitChar c xs with
    | [] => if x = c then [[], []] else [[x]]
    | h :: t => if x = c then [] :: h :: t else (x :: h) :: t

/-- Strip one trailing carriage return. -/
def stripCR (l : List Char) : List Char :=
  if l.getLast? = some (Char.ofNat 13) then l.dropLast else l

/-- Strip the `\r` of a `\r\n` line ending from each piece: every piece but
the last was followed by a `\n` in the original text, the last one only when
the text ended in `\n` (`endsNL`). -/
def stripLineCRs (endsNL : Bool) : List (List Char) → List (List Char)
  | [] => []
  | [l] => [if endsNL then stripCR l else l]
  | l :: ls => stripCR l :: stripLineCRs endsNL ls

/-- Model of Rust `str::lines`: split at line endings `\n` or `\r\n`, with
the final line ending optional. -/
def rustLines (s : String) : List String :=
  match s.toList with
  | [] => []
  | cs =>
    let endsNL := cs.getLast? = some (Char.ofNat 10)
    let body := if endsNL then cs.dropLast else cs
    (stripLineCRs endsNL (splitChar (Char.ofNat 10) body)).map String.mk

/-- `Error` (src/fs/archive.rs lines 416-418): a display-only message. -/
structure Error where
  message : String
deriving DecidableEq

/-- The blanket `impl From<E> for Error` (lines 420-430), applied to the
display text of the underlying error: keep the first line, and append `...`
when a second line exists. -/
def Error.fromDisplay (value : String) : Error :=
  let full_message := value
  let lines := rustLines full_message
  let message := (lines.head?).getD ""
  let rest := lines.tail
  let message := if rest.head?.isSome then message ++ "..." else message
  { message := message }

/-- Tar entry type tag (the subset of `tar::EntryType` distinguished by the
reader: `is_dir` and `is_symlink`; hard links and all other tags fall into
the remaining cases). -/
inductive EntryType where
  | regular
  | directory
  | symlink
  | hardLink
  | other
deriving DecidableEq

/-- `tar::EntryType::is_dir`. -/
def EntryType.is_dir : EntryType → Bool
  | .directory => true
  | _ => false

/-- `tar::EntryType::is_symlink`. -/
def EntryType.is_symlink : EntryType → Bool
  | .symlink => true
  | _ => false

/-- One raw tar record, modelling the outcomes of the tar-library accessor
calls the reader performs on `entry`/`entry.header()`.  Each fallible call is
an `Except String` whose error is the underlying error's display text. -/
structure TarRecord where
  headerPath : Except String FsPath
  entryPath : Except String FsPath
  headerSize : Except String Nat
  entrySize : Nat
  entryType : EntryType
  linkName : Except String (Option FsPath)
  uid : Except String Nat
  gid : Except String Nat
  username : Except String (Option String)
  groupname : Except String (Option String)
  mode : Except String Nat
  mtime : Except String Nat
  isGnu : Bool
  gnuAtime : Except String Nat
  gnuCtime : Except String Nat

/-- Modelled from the spec: `File::filename` (src/fs/file.rs is not part of
the excerpt) — "`name`: the final path segment (string)". -/
def File.filename (p : FsPath) : String :=
  (p.components.getLast?).getD ""

/-- Modelled from the spec: `File::extension` (src/fs/file.rs is not part of
the excerpt) — the lowercase extension of the final path segment, absent when
that segment has no dot. -/
def File.extension (p : FsPath) : Option String :=
  let name := File.filename p
  let parts := splitChar (Char.ofNat 46) name.toList
  if parts.length ≤ 1 then none
  else some (String.mk ((parts.getLastD []).map Char.toLower))

namespace TarReader

/-- `TarReader::size` (lines 277-279): the header size field takes
precedence, with the entry-computed size as fallback. -/
def size (r : TarRecord) : Nat :=
  (r.headerSize.toOption).getD r.entrySize

/-- `TarReader::path` (lines 281-287): prefer the header path field, falling
back to the entry path when it is unreadable. -/
def path (r : TarRecord) : Except String FsPath :=
  match r.headerPath with
  | .error _ => r.entryPath
  | .ok p => .ok p

/-- `TarReader::is_directory` (lines 289-291). -/
def is_directory (r : TarRecord) : Bool :=
  r.entryType.is_dir

/-- `TarReader::is_link` (lines 293-295). -/
def is_link (r : TarRecord) : Bool :=
  r.entryType.is_symlink

/-- `TarReader::link_target` (lines 297-302). -/
def link_target (r : TarRecord) : Except String (Option FsPath) :=
  r.linkName

/-- `TarReader::uid` (lines 305-307). -/
def uid (r : TarRecord) : Except String Nat :=
  r.uid

/-- `TarReader::gid` (lines 310-312). -/
def gid (r : TarRecord) : Except String Nat :=
  r.gid

/-- `TarReader::username` (lines 315-319). -/
def username (r : TarRecord) : Except String (Option String) :=
  r.username

/-- `TarReader::groupname` (lines 322-326). -/
def groupname (r : TarRecord) : Except String (Option String) :=
  r.groupname

/-- `TarReader::permissions` (lines 329-332). -/
def permissions (r : TarRecord) : Except String Permissions :=
  match r.mode with
  | .error e => .error e
  | .ok m => .ok (Permissions.from_mode m)

/-- `TarReader::mtime` (lines 334-336). -/
def mtime (r : TarRecord) : Except String Nat :=
  r.mtime

/-- `TarReader::atime` (lines 338-347): only GNU headers support atime. -/
def atime (r : TarRecord) : Except String Nat :=
  if r.isGnu then r.gnuAtime
  else .error "archive header does not support atime"

/-- `TarReader::ctime` (lines 349-358): only GNU headers support ctime. -/
def ctime (r : TarRecord) : Except String Nat :=
  if r.isGnu then r.gnuCtime
  else .error "archive header does not support ctime"

/-- `TarReader::tar_entry` (lines 360-388).  The `?` operators on the
mandatory reads become `Except` binds (in the evaluation order of the Rust
struct literal), each converting its error through the `From` impl; the
best-effort `atime`/`ctime` reads use `.ok()` (`toOption`). -/
def tar_entry (r : TarRecord) : Except Error ArchiveEntry :=
  match TarReader.path r with
  | .error e => .error (Error.fromDisplay e)
  | .ok path => do
    let permissions ← (TarReader.permissions r).mapError Error.fromDisplay
    let uid ← (TarReader.uid r).mapError Error.fromDisplay
    let uname ← (TarReader.username r).mapError Error.fromDisplay
    let gid ← (TarReader.gid r).mapError Error.fromDisplay
    let gname ← (TarReader.groupname r).mapError Error.fromDisplay
    let mtime ← (TarReader.mtime r).mapError Error.fromDisplay
    let link_target ← (TarReader.link_target r).mapError Error.fromDisplay
    Except.ok
      { name := File.filename path
        path := path
        size := TarReader.size r
        permissions := some permissions
        user := some { id := uid, name := uname }
        group := some { id := gid, name := gname }
        mtime := some mtime
        atime := (TarReader.atime r).toOption
        ctime := (TarReader.ctime r).toOption
        link_target := link_target
        is_link := TarReader.is_link r
        is_directory := TarReader.is_directory r }

end TarReader

/-- The raw contents of one container file (`tar::Archive::new(..).entries()`
after `fs::File::open`): either an open/stream failure, or the list of
per-record results the entries iterator produces. -/
structure TarContainer where
  entries : Except String (List (Except String TarRecord))

/-- The body of the `for` loop in `TarReader::read_dir` (lines 396-401):
a readable raw record goes through `tar_entry`, a stream-level failure is
converted to an `Error` in place. -/
def TarReader.readRecord (ent : Except String TarRecord) : Except Error ArchiveEntry :=
  match ent with
  | .ok entry => TarReader.tar_entry entry
  | .error e => .error (Error.fromDisplay e)

/-- `TarReader::read_dir` (lines 392-404): push one result per raw record,
in emission order; only an open/stream failure aborts the whole call. -/
def TarReader.read_dir (c : TarContainer) : Except String (List (Except Error ArchiveEntry)) :=
  match c.entries with
  | .error e => .error e
  | .ok entries => .ok (entries.map TarReader.readRecord)

/-- `ArchiveFormat` (lines 264-267). -/
inductive ArchiveFormat where
  | tar
  | unknown
deriving DecidableEq

/-- `ArchiveFormat::from_extension` (lines 407-414): exact match on the
single registered extension. -/
def ArchiveFormat.from_extension (extension : String) : Option ArchiveFormat :=
  if extension = "tar" then some ArchiveFormat.tar else none

/-- `Archive` (lines 438-443). -/
structure Archive where
  format : ArchiveFormat
  path : FsPath
  contents : List (Except Error ArchiveEntry)

/-- `Archive::from_path` (lines 473-494), with the container file at `path`
supplied explicitly (the real code reads it from the filesystem). -/
def Archive.from_path (path : FsPath) (c : TarContainer) : Except String Archive :=
  let extension := (File.extension path).getD ""
  let format := (ArchiveFormat.from_extension extension).getD ArchiveFormat.unknown
  match format with
  | .tar =>
    match TarReader.read_dir c with
    | .error e => .error e
    | .ok contents => .ok { format := format, path := path, contents := contents }
  | .unknown => .error "Unsupported archive format"

/-- `ArchiveIterator` (lines 445-450): a cursor over the remaining contents
plus the archive-internal path being listed. -/
structure ArchiveIterator where
  inner : List (Except Error ArchiveEntry)
  path : FsPath

/-- The yield condition of `ArchiveIterator::next` (lines 457-464):
`it.is_err() || it.as_ref().is_ok_and(|x| ...)` where the closure compares
the entry path's parent with the iterated path. -/
def ArchiveIterator.keep (path : FsPath) (it : Except Error ArchiveEntry) : Bool :=
  (match it with
    | .error _ => true
    | .ok _ => false) ||
  (match it with
    | .error _ => false
    | .ok x =>
      match x.path.parent with
      | some p => decide (p = path)
      | none => false)

/-- The `while let` loop of `ArchiveIterator::next`: advance the cursor until
an item satisfies the yield condition, returning it with the rest of the
cursor, or `none` at exhaustion. -/
def ArchiveIterator.nextAux (path : FsPath) :
    List (Except Error ArchiveEntry) →
      Option (Except Error ArchiveEntry × List (Except Error ArchiveEntry))
  | [] => none
  | it :: rest =>
    if ArchiveIterator.keep path it then some (it, rest)
    else ArchiveIterator.nextAux path rest

/-- `ArchiveIterator::next` (lines 455-470). -/
def ArchiveIterator.next (iter : ArchiveIterator) :
    Option (Except Error ArchiveEntry × ArchiveIterator) :=
  match ArchiveIterator.nextAux iter.path iter.inner with
  | none => none
  | some (it, rest) => some (it, { inner := rest, path := iter.path })

theorem ArchiveIterator.nextAux_length {path : FsPath}
    {l rest : List (Except Error ArchiveEntry)} {it : Except Error ArchiveEntry}
    (h : ArchiveIterator.nextAux path l = some (it, rest)) :
    rest.length < l.length := by
  induction l with
  | nil => simp [ArchiveIterator.nextAux] at h
  | cons x xs ih =>
    by_cases hk : ArchiveIterator.keep path x
    · simp [ArchiveIterator.nextAux, hk] at h
      rw [← h.2]
      simp
    · simp [ArchiveIterator.nextAux, hk] at h
      have := ih h
      simp
      omega

theorem ArchiveIterator.next_length {iter iter2 : ArchiveIterator}
    {it : Except Error ArchiveEntry}
    (h : iter.next = some (it, iter2)) :
    iter2.inner.length < iter.inner.length := by
  unfold ArchiveIterator.next at h
  cases haux : ArchiveIterator.nextAux iter.path iter.inner with
  | none => rw [haux] at h; exact absurd h (by simp)
  | some x =>
    rw [haux] at h
    cases h
    exact ArchiveIterator.nextAux_length haux

/-- The full sequence an iterator yields: repeatedly call `next` until it
returns `none`. -/
def ArchiveIterator.toList (iter : ArchiveIterator) : List (Except Error ArchiveEntry) :=
  match _hstep : iter.next with
  | none => []
  | some (it, iter2) => it :: iter2.toList
termination_by iter.inner.length
decreasing_by exact ArchiveIterator.next_length _hstep

/-- `Archive::files` (lines 498-503): a fresh iterator over the whole
contents, targeting `root`. -/
def Archive.files (a : Archive) (root : FsPath) : ArchiveIterator :=
  { inner := a.contents, path := root }

/-! ### Concrete records and entries used by examples, witnesses and counterexamples -/

/-- A well-formed relative file path used by the concrete records below. -/
def okPath : FsPath := { absolute := false, components := ["f.txt"] }

/-- A raw tar record on which every accessor succeeds. -/
def goodRec : TarRecord :=
  { headerPath := Except.ok okPath
    entryPath := Except.ok okPath
    headerSize := Except.ok 3
    entrySize := 3
    entryType := EntryType.regular
    linkName := Except.ok none
    uid := Except.ok 0
    gid := Except.ok 0
    username := Except.ok (some "root")
    groupname := Except.ok (some "root")
    mode := Except.ok 420
    mtime := Except.ok 100
    isGnu := true
    gnuAtime := Except.ok 5
    gnuCtime := Except.ok 6 }

/-- The entry `tar_entry` builds from `goodRec`. -/
def goodEntry : ArchiveEntry :=
  { name := "f.txt"
    path := okPath
    size := 3
    permissions := some (Permissions.from_mode 420)
    user := some { id := 0, name := some "root" }
    group := some { id := 0, name := some "root" }
    is_directory := false
    is_link := false
    link_target := none
    mtime := some 100
    atime := some 5
    ctime := some 6 }

/-- A raw record whose only failing read is the symbolic user name. -/
def badNameRec : TarRecord :=
  { goodRec with username := Except.error "invalid utf-8 sequence in username field" }

/-- A hard-link record: type tag is neither directory nor symlink, yet the
header's link-name field holds a target. -/
def hardLinkTarget : FsPath := { absolute := false, components := ["t"] }

/-- The hard-link raw record itself. -/
def hardLinkRec : TarRecord :=
  { goodRec with entryType := EntryType.hardLink
                 linkName := Except.ok (some hardLinkTarget) }

/-- The record sequence of a container with one corrupt record between two
readable ones. -/
def c2recs : List (Except String TarRecord) :=
  [Except.ok goodRec, Except.error "tar stream truncated", Except.ok goodRec]

/-- A minimal archive entry at the given relative components, used by the
listing examples. -/
def exEntry (comps : List String) (isDir : Bool) : ArchiveEntry :=
  { name := (comps.getLast?).getD ""
    path := { absolute := false, components := comps }
    size := 0
    permissions := none
    user := none
    group := none
    is_directory := isDir
    is_link := false
    link_target := none
    mtime := none
    atime := none
    ctime := none }

/-- The spec's worked example: records `a/`, `a/b.txt`, `a/c/`, `a/c/d.txt`. -/
def exContents : List (Except Error ArchiveEntry) :=
  [Except.ok (exEntry ["a"] true), Except.ok (exEntry ["a", "b.txt"] false),
   Except.ok (exEntry ["a", "c"] true), Except.ok (exEntry ["a", "c", "d.txt"] false)]

/-- The archive holding the worked example's contents. -/
def exArchive : Archive :=
  { format := ArchiveFormat.tar
    path := { absolute := false, components := ["x.tar"] }
    contents := exContents }

/-- A directory entry carrying a stale nonzero raw size. -/
def dirEntry42 : ArchiveEntry :=
  { exEntry ["d"] true with size := 42 }

/-- A regular-file entry with raw size 7. -/
def fileEntry7 : ArchiveEntry :=
  { exEntry ["g.bin"] false with size := 7 }

/-- A successful entry whose stored path has no parent component. -/
def rootlessEntry : ArchiveEntry :=
  { exEntry [] false with name := "" }

/-- An archive whose contents hold only the parentless entry. -/
def rootlessArchive : Archive :=
  { format := ArchiveFormat.tar
    path := { absolute := false, components := ["x.tar"] }
    contents := [Except.ok rootlessEntry] }

/-- The spec's reading of the Error message: the first line of the display
text, plus an ellipsis marker exactly when the text spans more than one
line. -/
def specDisplayMessage (s : String) : String :=
  match rustLines s with
  | [] => ""
  | [line] => line
  | line :: _ :: _ => line ++ "..."

/-- Exactly one of three classification flags holds. -/
def exactlyOneOfThree (x y z : Bool) : Prop :=
  (x = true ∧ y = false ∧ z = false) ∨ (x = false ∧ y = true ∧ z = false) ∨
  (x = false ∧ y = false ∧ z = true)

/-- The yield condition, restated the way the spec phrases it: an Error, or
a successful entry whose path's parent equals the listed root. -/
def specKeep (root : FsPath) (it : Except Error ArchiveEntry) : Bool :=
  match it with
  | .error _ => true
  | .ok x => decide (x.path.parent = some root)

/-! ### Helper lemmas shared by the claim theorems -/

theorem except_bind_ok {α β : Type} {x : Except Error α} {f : α → Except Error β} {b : β} :
    (x >>= f) = Except.ok b ↔ ∃ a, x = Except.ok a ∧ f a = Except.ok b := by
  cases x <;> simp [Bind.bind, Except.bind]

theorem except_mapError_ok {α : Type} {x : Except String α} {g : String → Error} {a : α} :
    x.mapError g = Except.ok a ↔ x = Except.ok a := by
  cases x <;> simp [Except.mapError]

theorem permissions_eq_ok {r : TarRecord} {pm : Permissions} :
    TarReader.permissions r = Except.ok pm ↔
      ∃ m, r.mode = Except.ok m ∧ pm = Permissions.from_mode m := by
  unfold TarReader.permissions
  cases hm : r.mode <;> simp [hm]
  exact eq_comm

/-- Full characterization of a successful `tar_entry` translation: every
mandatory read succeeded and the entry is the record built from the read
values. -/
theorem tar_entry_ok_iff {r : TarRecord} {a : ArchiveEntry} :
    TarReader.tar_entry r = Except.ok a ↔
    ∃ p m uid un gid gn mt lt,
      TarReader.path r = Except.ok p ∧
      r.mode = Except.ok m ∧
      r.uid = Except.ok uid ∧
      r.username = Except.ok un ∧
      r.gid = Except.ok gid ∧
      r.groupname = Except.ok gn ∧
      r.mtime = Except.ok mt ∧
      r.linkName = Except.ok lt ∧
      a = { name := File.filename p
            path := p
            size := TarReader.size r
            permissions := some (Permissions.from_mode m)
            user := some { id := uid, name := un }
            group := some { id := gid, name := gn }
            is_directory := TarReader.is_directory r
            is_link := TarReader.is_link r
            link_target := lt
            mtime := some mt
            atime := (TarReader.atime r).toOption
            ctime := (TarReader.ctime r).toOption } := by
  constructor
  · intro h
    unfold TarReader.tar_entry at h
    cases hp : TarReader.path r with
    | error e => rw [hp] at h; exact absurd h (by simp)
    | ok p =>
      rw [hp] at h
      simp only [except_bind_ok, except_mapError_ok, permissions_eq_ok,
        TarReader.uid, TarReader.username, TarReader.gid, TarReader.groupname,
        TarReader.mtime, TarReader.link_target, Except.ok.injEq] at h
      obtain ⟨perms, ⟨m, hm, hperm⟩, uid, hu, un, hun, gid, hg, gn, hgn, mt, hmt,
        lt, hlt, hfin⟩ := h
      refine ⟨p, m, uid, un, gid, gn, mt, lt, rfl, hm, hu, hun, hg, hgn, hmt, hlt, ?_⟩
      rw [← hfin, hperm]
  · rintro ⟨p, m, uid, un, gid, gn, mt, lt, hp, hm, hu, hun, hg, hgn, hmt, hlt, rfl⟩
    unfold TarReader.tar_entry
    rw [hp]
    simp [TarReader.permissions, hm, TarReader.uid, hu, TarReader.username, hun,
      TarReader.gid, hg, TarReader.groupname, hgn, TarReader.mtime, hmt,
      TarReader.link_target, hlt, Except.mapError, Bind.bind, Except.bind]

theorem keep_eq_specKeep (root : FsPath) (it : Except Error ArchiveEntry) :
    ArchiveIterator.keep root it = specKeep root it := by
  cases it with
  | error e => rfl
  | ok x =>
    cases hpar : x.path.parent <;>
      simp [ArchiveIterator.keep, specKeep, hpar]

theorem toList_unfold (iter : ArchiveIterator) :
    iter.toList =
      match iter.next with
      | none => []
      | some (it, iter2) => it :: iter2.toList := by
  rw [ArchiveIterator.toList]
  cases hn : iter.next <;> rfl

/-- Exhausting the iterator yields exactly the filtered contents, in order. -/
theorem toList_eq_filter (p : FsPath) (l : List (Except Error ArchiveEntry)) :
    ArchiveIterator.toList { inner := l, path := p } =
      l.filter (ArchiveIterator.keep p) := by
  induction l with
  | nil => rw [toList_unfold]; simp [ArchiveIterator.next, ArchiveIterator.nextAux]
  | cons x xs ih =>
    by_cases hk : ArchiveIterator.keep p x
    · rw [toList_unfold]
      simp only [ArchiveIterator.next, ArchiveIterator.nextAux, hk, if_pos]
      rw [List.filter_cons, if_pos hk, ih]
    · have hnext : ArchiveIterator.next { inner := x :: xs, path := p } =
          ArchiveIterator.next { inner := xs, path := p } := by
        simp [ArchiveIterator.next, ArchiveIterator.nextAux, hk]
      rw [toList_unfold, hnext, ← toList_unfold, ih, List.filter_cons, if_neg (by simp [hk])]

/-! ### Claim theorems -/

/-- C1: for every archive and root, the iterator `files(root)` yields exactly
the elements of `contents` that are an Error or an Ok entry whose path's
parent equals the root, in the original order; on the worked example
(`a/`, `a/b.txt`, `a/c/`, `a/c/d.txt`), listing `a` yields `a/b.txt` and
`a/c` only, listing `a/c` yields `a/c/d.txt` only, and listing the empty
root yields `a` only. -/
theorem c1_files_yields_errors_and_direct_children :
    (∀ (a : Archive) (root : FsPath),
      (a.files root).toList = a.contents.filter (specKeep root))
    ∧ (exArchive.files { absolute := false, components := ["a"] }).toList =
        [Except.ok (exEntry ["a", "b.txt"] false), Except.ok (exEntry ["a", "c"] true)]
    ∧ (exArchive.files { absolute := false, components := ["a", "c"] }).toList =
        [Except.ok (exEntry ["a", "c", "d.txt"] false)]
    ∧ (exArchive.files { absolute := false, components := [] }).toList =
        [Except.ok (exEntry ["a"] true)] := by
  have hmain : ∀ (a : Archive) (root : FsPath),
      (a.files root).toList = a.contents.filter (specKeep root) := by
    intro a root
    have hpt : ArchiveIterator.keep root = specKeep root :=
      funext fun it => keep_eq_specKeep root it
    rw [Archive.files, toList_eq_filter, hpt]
  refine ⟨hmain, ?_, ?_, ?_⟩ <;> rw [hmain] <;> rfl

/-- C10: a successful entry whose stored path has no parent component is
never yielded by `files(root)`, whatever the root. -/
theorem c10_parentless_entry_never_yielded (a : Archive) (root : FsPath)
    (e : ArchiveEntry) (h : e.path.parent = none) :
    Except.ok e ∉ (a.files root).toList := by
  intro hmem
  rw [Archive.files, toList_eq_filter] at hmem
  have hkeep := (List.mem_filter.mp hmem).2
  simp [ArchiveIterator.keep, h] at hkeep

theorem c10_witness :
    rootlessEntry.path.parent = none
    ∧ Except.ok rootlessEntry ∉
        (rootlessArchive.files { absolute := false, components := [] }).toList :=
  ⟨rfl, c10_parentless_entry_never_yielded rootlessArchive
    { absolute := false, components := [] } rootlessEntry rfl⟩

/-- C3: `size()` reports "not applicable" for every entry flagged directory
or link, regardless of the raw size field, and the known numeric raw size
for every other entry. -/
theorem c3_size_masks_directories_and_links (e : ArchiveEntry) :
    ((e.is_directory = true ∨ e.is_link = true) → Filelike.size e = FSize.none)
    ∧ (e.is_directory = false → e.is_link = false →
        Filelike.size e = FSize.some e.size) := by
  constructor
  · rintro (h | h) <;> simp [Filelike.size, h]
  · intro h1 h2
    simp [Filelike.size, h1, h2]

theorem c3_witness :
    Filelike.size dirEntry42 = FSize.none
    ∧ Filelike.size fileEntry7 = FSize.some 7 :=
  ⟨(c3_size_masks_directories_and_links dirEntry42).1 (Or.inl rfl),
   (c3_size_masks_directories_and_links fileEntry7).2 rfl rfl⟩

/-- C9: `length()` returns the raw declared size field unconditionally, so
for directories and links the possibly-stale raw size stays observable
through `length()` even though `size()` masks it. -/
theorem c9_length_exposes_raw_size (e : ArchiveEntry) :
    Filelike.length e = e.size
    ∧ ((e.is_directory = true ∨ e.is_link = true) →
        Filelike.size e = FSize.none ∧ Filelike.length e = e.size) := by
  refine ⟨rfl, fun h => ⟨?_, rfl⟩⟩
  rcases h with h | h <;> simp [Filelike.size, h]

theorem c9_witness :
    Filelike.length dirEntry42 = dirEntry42.size
    ∧ (Filelike.size dirEntry42 = FSize.none
        ∧ Filelike.length dirEntry42 = dirEntry42.size) :=
  ⟨(c9_length_exposes_raw_size dirEntry42).1,
   (c9_length_exposes_raw_size dirEntry42).2 (Or.inl rfl)⟩

/-- C8: the `Error` conversion stores the first line of the underlying
error's display text, with `...` appended exactly when the text spans more
than one line; a single-line diagnostic is kept verbatim. -/
theorem c8_error_keeps_first_line (s : String) :
    (Error.fromDisplay s).message = specDisplayMessage s := by
  unfold Error.fromDisplay specDisplayMessage
  cases hl : rustLines s with
  | nil => simp [hl]
  | cons a t => cases t <;> simp [hl]

/-- C5: for every path whose extension is not exactly `tar` (including paths
with no extension), `from_path` fails with "Unsupported archive format" and
constructs no Archive, whatever the container holds. -/
theorem c5_unknown_extension_rejected (p : FsPath) (c : TarContainer)
    (h : File.extension p ≠ some "tar") :
    Archive.from_path p c = Except.error "Unsupported archive format" := by
  unfold Archive.from_path
  cases hext : File.extension p with
  | none => simp [hext, ArchiveFormat.from_extension]
  | some s =>
    have hs : s ≠ "tar" := fun heq => h (hext.trans (by rw [heq]))
    simp [hext, ArchiveFormat.from_extension, hs]

theorem c5_witness :
    File.extension { absolute := false, components := ["x.zip"] } ≠ some "tar"
    ∧ Archive.from_path { absolute := false, components := ["x.zip"] }
        { entries := Except.ok [] } = Except.error "Unsupported archive format" :=
  ⟨by decide,
   c5_unknown_extension_rejected { absolute := false, components := ["x.zip"] }
     { entries := Except.ok [] } (by decide)⟩

/-- C6: every entry the reader constructs satisfies exactly one of
`is_directory`, `is_link`, `is_file`; the first two are never both true and
`is_file` is derived as neither directory nor link. -/
theorem c6_classification_partition (r : TarRecord) (a : ArchiveEntry)
    (h : TarReader.tar_entry r = Except.ok a) :
    ¬(Filelike.is_directory a = true ∧ Filelike.is_link a = true)
    ∧ Filelike.is_file a = (!Filelike.is_link a && !Filelike.is_directory a)
    ∧ exactlyOneOfThree (Filelike.is_directory a) (Filelike.is_link a)
        (Filelike.is_file a) := by
  rw [tar_entry_ok_iff] at h
  obtain ⟨p, m, uid, un, gid, gn, mt, lt, _, _, _, _, _, _, _, _, rfl⟩ := h
  simp only [Filelike.is_directory, Filelike.is_link, Filelike.is_file,
    TarReader.is_directory, TarReader.is_link]
  cases r.entryType <;>
    simp [EntryType.is_dir, EntryType.is_symlink, exactlyOneOfThree]

theorem c6_witness :
    ¬(Filelike.is_directory goodEntry = true ∧ Filelike.is_link goodEntry = true)
    ∧ Filelike.is_file goodEntry =
        (!Filelike.is_link goodEntry && !Filelike.is_directory goodEntry)
    ∧ exactlyOneOfThree (Filelike.is_directory goodEntry)
        (Filelike.is_link goodEntry) (Filelike.is_file goodEntry) :=
  c6_classification_partition goodRec goodEntry rfl

/-- C7 as stated is false: a hard-link record has `is_link = false` yet its
constructed entry carries a present `link_target`, because the reader reads
the link-name field for every record. -/
theorem c7_counterexample :
    (TarReader.tar_entry hardLinkRec).toOption.map
        (fun a => (a.is_link, a.link_target)) =
      some (false, some hardLinkTarget) := rfl

/-- C7 (amended): the reader reads the link-name field unconditionally; a
constructed entry's `link_target` equals the record's link-name field
(absent only when that field is empty), and `is_link` is true exactly when
the type tag is symbolic link — so `link_target` may be present even when
`is_link` is false. -/
theorem c7_amended_link_target_unconditional (r : TarRecord) (a : ArchiveEntry)
    (h : TarReader.tar_entry r = Except.ok a) :
    r.linkName = Except.ok a.link_target
    ∧ a.is_link = r.entryType.is_symlink := by
  rw [tar_entry_ok_iff] at h
  obtain ⟨p, m, uid, un, gid, gn, mt, lt, _, _, _, _, _, _, _, hlt, rfl⟩ := h
  exact ⟨hlt, rfl⟩

/-- The entry `tar_entry` builds from `hardLinkRec`. -/
theorem c7_witness :
    hardLinkRec.linkName =
      Except.ok (((TarReader.tar_entry hardLinkRec).toOption.getD goodEntry).link_target)
    ∧ ((TarReader.tar_entry hardLinkRec).toOption.getD goodEntry).is_link =
        hardLinkRec.entryType.is_symlink :=
  c7_amended_link_target_unconditional hardLinkRec
    ((TarReader.tar_entry hardLinkRec).toOption.getD goodEntry) rfl

/-- C4 as stated is false: a record whose only failing read is the symbolic
user name does not construct an entry with the name absent — the whole
record aborts with an Error (the same record with the name merely absent
succeeds). -/
theorem c4_counterexample :
    (TarReader.tar_entry badNameRec).isOk = false
    ∧ badNameRec.username.isOk = false
    ∧ (TarReader.tar_entry { badNameRec with username := Except.ok none }).isOk
        = true :=
  ⟨rfl, rfl, rfl⟩

/-- C4 (amended): a failure while reading the atime/ctime extended
timestamps never produces a record-level Error — the entry still constructs
with those fields absent and everything else unchanged; an absent symbolic
user/group name likewise degrades to owner name `none`; but a failure while
reading the symbolic user name aborts the record with an Error. -/
theorem c4_amended_optional_field_failures :
    (∀ (r : TarRecord) (a : ArchiveEntry), TarReader.tar_entry r = Except.ok a →
      TarReader.tar_entry
          { r with gnuAtime := Except.error "unreadable atime"
                   gnuCtime := Except.error "unreadable ctime" } =
        Except.ok { a with atime := none, ctime := none })
    ∧ (∀ (r : TarRecord) (a : ArchiveEntry), TarReader.tar_entry r = Except.ok a →
        ∃ u g, a.user = some u ∧ r.username = Except.ok u.name
          ∧ a.group = some g ∧ r.groupname = Except.ok g.name)
    ∧ (∀ r : TarRecord, r.username.isOk = false →
        (TarReader.tar_entry r).isOk = false) := by
  refine ⟨?_, ?_, ?_⟩
  · intro r a h
    rw [tar_entry_ok_iff] at h
    obtain ⟨p, m, uid, un, gid, gn, mt, lt, hp, hm, hu, hun, hg, hgn, hmt, hlt, rfl⟩ := h
    rw [tar_entry_ok_iff]
    refine ⟨p, m, uid, un, gid, gn, mt, lt, hp, hm, hu, hun, hg, hgn, hmt, hlt, ?_⟩
    simp only [TarReader.atime, TarReader.ctime, TarReader.size,
      TarReader.is_directory, TarReader.is_link]
    cases hgnu : r.isGnu <;> simp [hgnu, Except.toOption]
  · intro r a h
    rw [tar_entry_ok_iff] at h
    obtain ⟨p, m, uid, un, gid, gn, mt, lt, hp, hm, hu, hun, hg, hgn, hmt, hlt, rfl⟩ := h
    exact ⟨{ id := uid, name := un }, { id := gid, name := gn }, rfl, hun, rfl, hgn⟩
  · intro r hname
    cases ht : TarReader.tar_entry r with
    | error e => rfl
    | ok a =>
      rw [tar_entry_ok_iff] at ht
      obtain ⟨_, _, _, un, _, _, _, _, _, _, _, hun, _⟩ := ht
      rw [hun] at hname
      simp [Except.isOk, Except.toBool] at hname

theorem c4_witness :
    TarReader.tar_entry
        { goodRec with gnuAtime := Except.error "unreadable atime"
                       gnuCtime := Except.error "unreadable ctime" } =
      Except.ok { goodEntry with atime := none, ctime := none }
    ∧ (TarReader.tar_entry badNameRec).isOk = false :=
  ⟨c4_amended_optional_field_failures.1 goodRec goodEntry rfl,
   c4_amended_optional_field_failures.2.2 badNameRec rfl⟩

/-- C2: a container whose record stream holds one corrupt record among
otherwise well-formed ones yields, on reading, one result per record in
emission order — an Error exactly at the corrupt position and a successful
entry everywhere else — and the whole open still succeeds. -/
theorem c2_one_corrupt_record_isolated (recs : List (Except String TarRecord))
    (i : Nat) (hi : i < recs.length)
    (hbad : (TarReader.readRecord recs[i]).isOk = false)
    (hgood : ∀ j (hj : j < recs.length), j ≠ i →
      (TarReader.readRecord recs[j]).isOk = true) :
    TarReader.read_dir { entries := Except.ok recs } =
      Except.ok (recs.map TarReader.readRecord)
    ∧ (recs.map TarReader.readRecord).length = recs.length
    ∧ ∀ j (hj : j < (recs.map TarReader.readRecord).length),
        ((recs.map TarReader.readRecord)[j].isOk = false ↔ j = i) := by
  refine ⟨rfl, by simp, ?_⟩
  intro j hj
  have hj2 : j < recs.length := by simpa using hj
  rw [List.getElem_map]
  constructor
  · intro hfail
    by_contra hne
    rw [hgood j hj2 hne] at hfail
    exact absurd hfail (by simp)
  · intro hji
    subst hji
    exact hbad

theorem c2_witness :
    TarReader.read_dir { entries := Except.ok c2recs } =
      Except.ok (c2recs.map TarReader.readRecord)
    ∧ (c2recs.map TarReader.readRecord).length = c2recs.length
    ∧ ∀ j (hj : j < (c2recs.map TarReader.readRecord).length),
        ((c2recs.map TarReader.readRecord)[j].isOk = false ↔ j = 1) :=
  c2_one_corrupt_record_isolated c2recs 1 (by decide) (by decide)
    (by decide)
